import Mathlib

/-!
Verification of the hireflow-backend resume parsing, scoring and workflow
engine (src/backend.py), as a shallow embedding in Lean 4.

Modelling conventions:
* Python strings are Lean `String` / `List Char`; the regular expressions of
  the source are translated into explicit, executable scanners over
  `List Char` that reproduce the leftmost, greedy, non-overlapping semantics
  of `re.findall` / `re.match` / `re.search` on the concrete patterns used by
  the code.  Wherever the concrete pattern makes backtracking irrelevant
  (a greedy character class followed by a character that the class excludes),
  the scanner uses maximal munch; remaining branch points (the alternation
  years|yrs|y followed by a word boundary, the backtracking digit search of
  the phone pattern) are handled explicitly.
* Python floats are modelled as exact rationals (ℚ); `round(x, 2)` is
  modelled as rounding the scaled rational to the nearest integer
  (`round2` below).  Binary floating point representation error and the
  round-half-to-even tie rule are outside the model; no claim depends on a
  tie or on a float that is not exactly representable as a small rational.
* `str.lower` / `Char.toLower`, `\w`, `\s`, `\d` are modelled on ASCII, as
  in all inputs exercised here.
* External collaborators (calendar, email, Slack, ATS store) are the mock
  classes of the source; their returned timestamp strings depend on real
  time and strftime formatting, which are abstracted (only the shape of the
  returned data, which is all the workflow logic consumes, is kept).
-/

abbrev Chars := List Char

/-- Python `str.lower` on ASCII text, as a map over the character list.
(The byte-position based `String.toLower` of the Lean core library does not
reduce inside the kernel, so the list form is used everywhere.) -/
def lowerChars (cs : Chars) : Chars := cs.map Char.toLower

/-- Python `str.lower` as a `String` function. -/
def strLower (s : String) : String := String.mk (lowerChars s.toList)

/-- Python `str.strip()`: remove leading and trailing whitespace. -/
def trimChars (cs : Chars) : Chars :=
  ((cs.dropWhile Char.isWhitespace).reverse.dropWhile Char.isWhitespace).reverse

/-- Python `str.strip()` as a `String` function. -/
def strTrim (s : String) : String := String.mk (trimChars s.toList)

/-- Split a character list at every newline character. -/
def splitOnNl : Chars → List Chars
  | [] => [[]]
  | c :: cs =>
    if c = '\n' then [] :: splitOnNl cs
    else
      match splitOnNl cs with
      | l :: ls => (c :: l) :: ls
      | [] => [[c]]

/-- Python `str.splitlines`, modelled for LF and CRLF line endings: split on
the newline character (a trailing carriage return on a line is removed later
by the `strip` the source applies, and never affects a substring test).
Python also treats a lone CR, VT, FF and some unicode separators as line
breaks, and omits one trailing empty line; the extra trailing empty line
produced here is skipped by every consumer (all of them skip empty lines). -/
def splitlines (s : String) : List String := (splitOnNl s.toList).map String.mk

/-- Value of a list of decimal digit characters, most significant first. -/
def digitsToNat (ds : Chars) : Nat :=
  ds.foldl (fun n c => 10 * n + (c.toNat - 48)) 0

/-- Match a literal character sequence at the head of the input; on success
return the rest of the input. -/
def dropLit : Chars → Chars → Option Chars
  | [], cs => some cs
  | _ :: _, [] => none
  | p :: ps, c :: cs => if c = p then dropLit ps cs else none

/-- Python `pat in hay` substring test. -/
def hasSubstr (pat : Chars) : Chars → Bool
  | [] => pat.isEmpty
  | c :: cs => (dropLit pat (c :: cs)).isSome || hasSubstr pat cs

/-- Python regex `\w` on ASCII text: letters, digits, underscore. -/
def isWordChar (c : Char) : Bool := c.isAlphanum || c = '_'

/-- Regex word boundary `\b` placed after a word character: satisfied at end
of input or when the next character is not a word character. -/
def wordBoundaryOk : Chars → Bool
  | [] => true
  | c :: _ => !(isWordChar c)

/-! ## extract_experience_years (backend.py lines 118-126)

Python: `re.findall(r"(\d+(?:\.\d+)?)(?:\+)?\s*(?:years|yrs|y)\b", text.lower())`,
then `years = [float(m[0]) for m in matches]` and the maximum of `years`,
else 0.0.  The pattern has exactly ONE capture group, so `re.findall`
returns the captured number STRINGS, `m` is such a string, and `m[0]` is
its FIRST CHARACTER — always a single digit.  The scanner below therefore
yields the captured strings, and the `float(m[0])` step is applied where
the source applies it. -/

/-- Alternative `y` of the unit alternation, with its trailing `\b`. -/
def matchUnitY (cs : Chars) : Option Chars :=
  match dropLit ['y'] cs with
  | some r => if wordBoundaryOk r then some r else none
  | none => none

/-- Alternatives `yrs`, then `y`, of the unit alternation. -/
def matchUnitYrs (cs : Chars) : Option Chars :=
  match dropLit ['y', 'r', 's'] cs with
  | some r => if wordBoundaryOk r then some r else matchUnitY cs
  | none => matchUnitY cs

/-- The regex fragment `(?:years|yrs|y)\b`: alternatives are tried in order,
each together with the trailing word boundary, as the regex engine does. -/
def matchUnit (cs : Chars) : Option Chars :=
  match dropLit ['y', 'e', 'a', 'r', 's'] cs with
  | some r => if wordBoundaryOk r then some r else matchUnitYrs cs
  | none => matchUnitYrs cs

/-- The optional fraction `(?:\.\d+)?`: taken exactly when a dot directly
followed by at least one digit is present (greedy; taking it can never
prevent the rest of the pattern from matching, since after declining the
dot would have to match `\+`, `\s` or `y`). -/
def fracSplit : Chars → (Chars × Chars)
  | '.' :: rest =>
    let ds := rest.takeWhile Char.isDigit
    if ds.isEmpty then ([], '.' :: rest) else (ds, rest.dropWhile Char.isDigit)
  | cs => ([], cs)

/-- Match `(\d+(?:\.\d+)?)(?:\+)?\s*(?:years|yrs|y)\b` at the head of the
input.  Returns the group-1 capture — the number as the character string
the regex engine captured, digits plus an optional dot and fraction digits
— and the input remaining after the match.  The greedy `\d+`, the optional
`\+` and the greedy `\s*` are deterministic here because the character that
each is followed by in the pattern is excluded from the preceding class. -/
def matchExpAt (cs : Chars) : Option (Chars × Chars) :=
  let ip := cs.takeWhile Char.isDigit
  if ip.isEmpty then none else
  let r1 := cs.dropWhile Char.isDigit
  let (fp, r2) := fracSplit r1
  let r3 := match r2 with
            | '+' :: rest => rest
            | _ => r2
  let r4 := r3.dropWhile Char.isWhitespace
  match matchUnit r4 with
  | some rest => some (ip ++ (if fp.isEmpty then [] else '.' :: fp), rest)
  | none => none

/-- `re.findall` scan for the experience pattern: try to match at the current
position; on success continue after the match, otherwise advance one
character.  The fuel argument equals the length of the input, which bounds
the number of scan steps because every step consumes at least one
character (a successful match consumes the nonempty `\d+` part and more). -/
def scanExpAux : Nat → Chars → List Chars
  | 0, _ => []
  | _ + 1, [] => []
  | fuel + 1, c :: cs =>
    match matchExpAt (c :: cs) with
    | some (m, rest) => m :: scanExpAux fuel rest
    | none => scanExpAux fuel cs

/-- All number strings captured by `re.findall` for the experience
pattern. -/
def scanExp (cs : Chars) : List Chars := scanExpAux cs.length cs

/-- backend.py `extract_experience_years`: `float(m[0])` is applied to each
captured number string m — its first character, always a single digit, so
the value is that digit — and the maximum of these values is returned, 0.0
when the text is empty or nothing matches. -/
def extract_experience_years (resume_text : String) : ℚ :=
  if resume_text = "" then 0 else
  let years := (scanExp (lowerChars resume_text.toList)).map
    (fun m => (digitsToNat (m.take 1) : ℚ))
  match years with
  | [] => 0
  | y :: ys => ys.foldl max y

/-! ## extract_skills (backend.py lines 87-115)

Case-insensitive whole-word regex search `\b<pattern>\b` for each synonym of
each vocabulary entry, plain substring search for patterns containing `+`
(`+` is not a word character); the found canonical names form a set,
returned sorted. -/

def defaultSkillSet : List String :=
  ["python", "java", "c++", "javascript", "react", "nodejs", "aws", "docker",
   "kubernetes", "sql", "nosql", "machine learning", "nlp", "deep learning",
   "cloud", "devops", "agile", "scrum", "git"]

/-- The synonym table of `extract_skills`; a skill not in the table has
itself as its only pattern. -/
def synonymsFor (skill : String) : List String :=
  if skill = "nodejs" then ["node", "node.js", "nodejs"]
  else if skill = "javascript" then ["js", "javascript"]
  else if skill = "c++" then ["c++", "cpp"]
  else if skill = "machine learning" then ["machine learning", "ml"]
  else if skill = "deep learning" then ["deep learning", "dl"]
  else [skill]

/-- Occurrence of the literal pattern at the head of the input, with a word
boundary on each side (`prev` is the character just before the current
position, `none` at the start of the text).  All patterns used this way
begin and end with a word character, so `\b` means: the neighbouring
character is absent or not a word character. -/
def boundedAt (p : Chars) (prev : Option Char) (cs : Chars) : Bool :=
  (match prev with
   | none => true
   | some c => !(isWordChar c)) &&
  (match dropLit p cs with
   | some rest => wordBoundaryOk rest
   | none => false)

/-- `re.search(rf"\b{re.escape(p)}\b", text)` for a nonempty pattern: does a
word-bounded occurrence of `p` start at any position? -/
def hasWordBounded (p : Chars) : Option Char → Chars → Bool
  | _, [] => false
  | prev, c :: cs => boundedAt p prev (c :: cs) || hasWordBounded p (some c) cs

/-- One pattern of the synonym loop: substring match when the pattern
contains `+`, word-bounded match otherwise. -/
def skillPatternFound (p : String) (textLower : Chars) : Bool :=
  if p.toList.contains '+' then hasSubstr p.toList textLower
  else hasWordBounded p.toList none textLower

/-- backend.py `extract_skills`: the sorted set of vocabulary entries with a
matching pattern in the lowercased text. -/
def extract_skills (resume_text : String) (skill_set : List String := defaultSkillSet) :
    List String :=
  if resume_text = "" then [] else
  let textLower := lowerChars resume_text.toList
  let found := skill_set.filter (fun skill =>
    (synonymsFor skill).any (fun p => skillPatternFound p textLower))
  found.dedup.mergeSort (fun a b => decide (a ≤ b))

/-! ## extract_education (backend.py lines 129-139) -/

def eduKeywords : List String :=
  ["phd", "doctorate", "master", "bachelor", "associate", "diploma", "high school"]

/-- backend.py `extract_education`: the first line containing one of the
education keywords (case-insensitively), stripped; else "Not specified". -/
def extract_education (resume_text : String) : String :=
  if resume_text = "" then "Not specified" else
  match (splitlines resume_text).find? (fun line =>
      eduKeywords.any (fun kw => hasSubstr kw.toList (lowerChars line.toList))) with
  | some line => strTrim line
  | none => "Not specified"

/-! ## email extraction and validation (backend.py lines 67-71 and 168-170)

Candidate pattern (parse_resume): `[a-zA-Z0-9_.+-]+@[a-zA-Z0-9-]+\.[a-zA-Z0-9-.]+`.
Validation pattern (validate_email): `^[A-Za-z0-9._%+-]+@[A-Za-z0-9.-]+\.[A-Za-z]{2,}$`.
In the candidate pattern every greedy class is followed by a character it
excludes, so matching is deterministic maximal munch; in the validation
pattern the domain part `[A-Za-z0-9.-]+\.[A-Za-z]{2,}` needs backtracking,
modelled as the existence of a split, which is exactly the language of the
regex. -/

def emailLocalChar (c : Char) : Bool := c.isAlphanum || c = '_' || c = '.' || c = '+' || c = '-'

def emailDomChar (c : Char) : Bool := c.isAlphanum || c = '-'

def emailTailChar (c : Char) : Bool := c.isAlphanum || c = '-' || c = '.'

/-- Match the email candidate pattern at the head of the input; on success
return the matched characters and the rest. -/
def matchEmailAt (cs : Chars) : Option (Chars × Chars) :=
  let l := cs.takeWhile emailLocalChar
  if l.isEmpty then none else
  match cs.dropWhile emailLocalChar with
  | '@' :: r2 =>
    let d := r2.takeWhile emailDomChar
    if d.isEmpty then none else
    (match r2.dropWhile emailDomChar with
     | '.' :: r4 =>
       let t := r4.takeWhile emailTailChar
       if t.isEmpty then none
       else some (l ++ '@' :: d ++ '.' :: t, r4.dropWhile emailTailChar)
     | _ => none)
  | _ => none

/-- `re.findall` scan for email-like substrings.  Fuel equals the input
length; every step consumes at least one character (a match consumes the
nonempty local part and more). -/
def scanEmailsAux : Nat → Chars → List String
  | 0, _ => []
  | _ + 1, [] => []
  | fuel + 1, c :: cs =>
    match matchEmailAt (c :: cs) with
    | some (m, rest) => String.mk m :: scanEmailsAux fuel rest
    | none => scanEmailsAux fuel cs

def scanEmails (cs : Chars) : List String := scanEmailsAux cs.length cs

/-- `re.search` for the email candidate pattern: a match starts somewhere. -/
def hasEmailLike : Chars → Bool
  | [] => false
  | c :: cs => (matchEmailAt (c :: cs)).isSome || hasEmailLike cs

def vEmailLocalChar (c : Char) : Bool :=
  c.isAlphanum || c = '.' || c = '_' || c = '%' || c = '+' || c = '-'

def vEmailDomChar (c : Char) : Bool := c.isAlphanum || c = '.' || c = '-'

/-- The anchored tail `[A-Za-z]{2,}$` of the validation pattern. -/
def emailTldOk (cs : Chars) : Bool := 2 ≤ cs.length && cs.all Char.isAlpha

/-- backend.py `validate_email`: `re.match` of the anchored validation
pattern (the trailing `$` is modelled as end-of-string; no candidate string
contains the newline `$` would additionally tolerate, since every character
class in play excludes whitespace). -/
def validate_email (email : String) : Bool :=
  if email = "" then false else
  let cs := email.toList
  let l := cs.takeWhile vEmailLocalChar
  !l.isEmpty &&
  (match cs.dropWhile vEmailLocalChar with
   | '@' :: rest =>
     (List.range rest.length).any (fun i =>
       rest.getD i ' ' = '.' && !(rest.take i).isEmpty &&
       (rest.take i).all vEmailDomChar && emailTldOk (rest.drop (i + 1)))
   | _ => false)

/-! ## phone extraction and validation (backend.py lines 74-84 and 169-172)

Candidate pattern (parse_resume): `\+?\d[\d\s\-]{7,}\d`.
Validation pattern (validate_phone): `^\+?[0-9\s\-()]{7,20}$`.
Name fallback test (parse_resume): `re.search(r"\+?\d[\d\s\-]{6,}", line)`. -/

/-- The class `[\d\s\-]`. -/
def phoneSearchChar (c : Char) : Bool := c.isDigit || c.isWhitespace || c = '-'

/-- Match `\+?\d[\d\s\-]{7,}\d` at the head of the input.  The greedy
`[\d\s\-]{7,}` backtracks until its following `\d` matches; since `\d` is
inside the class, this amounts to ending the repetition just before the
last digit of the maximal class run whose index is at least 7. -/
def matchPhoneAt (cs : Chars) : Option (Chars × Chars) :=
  let pr : Chars × Chars :=
    match cs with
    | '+' :: rest => (['+'], rest)
    | _ => ([], cs)
  match pr.2 with
  | c :: r1 =>
    if c.isDigit then
      let run := r1.takeWhile phoneSearchChar
      match ((List.range run.length).filter
          (fun j => 7 ≤ j && (run.getD j ' ').isDigit)).getLast? with
      | some j => some (pr.1 ++ c :: run.take (j + 1), r1.drop (j + 1))
      | none => none
    else none
  | [] => none

/-- `re.findall` scan for phone-like substrings.  Fuel equals the input
length; every step consumes at least one character. -/
def scanPhonesAux : Nat → Chars → List String
  | 0, _ => []
  | _ + 1, [] => []
  | fuel + 1, c :: cs =>
    match matchPhoneAt (c :: cs) with
    | some (m, rest) => String.mk m :: scanPhonesAux fuel rest
    | none => scanPhonesAux fuel cs

def scanPhones (cs : Chars) : List String := scanPhonesAux cs.length cs

/-- The class `[0-9\s\-()]` of the validation pattern. -/
def validPhoneChar (c : Char) : Bool :=
  c.isDigit || c.isWhitespace || c = '-' || c = '(' || c = ')'

/-- backend.py `validate_phone`: `re.match(r"^\+?[0-9\s\-()]{7,20}$", phone)`. -/
def validate_phone (phone : String) : Bool :=
  if phone = "" then false else
  let r : Chars :=
    match phone.toList with
    | '+' :: rest => rest
    | cs => cs
  7 ≤ r.length && r.length ≤ 20 && r.all validPhoneChar

/-- backend.py `sanitize_phone`: drop every character that is not a digit
or a plus sign. -/
def sanitize_phone (phone : String) : String :=
  if phone = "" then "" else
  String.mk (phone.toList.filter (fun c => c.isDigit || c = '+'))

/-- `re.search(r"\+?\d[\d\s\-]{6,}", line)`: a match exists iff some digit
is followed by at least six characters of the class (the optional plus
cannot enable a position that this criterion misses). -/
def hasPhoneRun : Chars → Bool
  | [] => false
  | c :: cs =>
    (c.isDigit && (cs.take 6).length = 6 && (cs.take 6).all phoneSearchChar) || hasPhoneRun cs

/-! ## name extraction (backend.py lines 174-204, inside parse_resume)

Phase 1: first stripped line matching
`^(?:name|full name|candidate)[:\-\s]+(.+)$` (IGNORECASE) gives the
stripped capture.  Phase 2 (only when phase 1 produced "Unknown", either
because no line matched or because the captured value stripped to
"Unknown"): first non-empty line that contains no email-like match, no
phone-like run and no keyword, with a leading `name` label removed and a
length constraint. -/

/-- The separator class `[:\-\s]` of the label patterns. -/
def sepChar (c : Char) : Bool := c = ':' || c = '-' || c.isWhitespace

/-- Length of the label prefix matched at the head of the lowercased line:
`name`, `full name` or `candidate`.  At most one alternative can match
(their first characters differ), so trying them in order is exact. -/
def labelSplit (low : Chars) : Option Nat :=
  if (dropLit ['n', 'a', 'm', 'e'] low).isSome then some 4
  else if (dropLit ['f', 'u', 'l', 'l', ' ', 'n', 'a', 'm', 'e'] low).isSome then some 9
  else if (dropLit ['c', 'a', 'n', 'd', 'i', 'd', 'a', 't', 'e'] low).isSome then some 9
  else none

/-- `re.match(r"^(?:name|full name|candidate)[:\-\s]+(.+)$", ln, IGNORECASE)`,
returning the capture `(.+)` on success.  The greedy separator run gives
all characters after it to the capture; when the separators reach the end
of the line the engine backtracks exactly one separator (the capture needs
one character), and a single trailing separator leaves nothing to capture,
failing the match. -/
def labelMatch (ln : String) : Option String :=
  let cs := ln.toList
  match labelSplit (lowerChars cs) with
  | none => none
  | some k =>
    let rest := cs.drop k
    let seps := (rest.takeWhile sepChar).length
    if seps = 0 then none
    else if seps < rest.length then some (String.mk (rest.drop seps))
    else if 2 ≤ seps then some (String.mk (rest.drop (seps - 1)))
    else none

/-- `re.sub(r"^name[:\-\s]+", "", ln, flags=IGNORECASE)`: remove a leading
`name` label and its separators, when present. -/
def stripNameLabel (ln : String) : String :=
  let cs := ln.toList
  match dropLit ['n', 'a', 'm', 'e'] (lowerChars cs) with
  | some _ =>
    let seps := ((cs.drop 4).takeWhile sepChar).length
    if seps = 0 then ln else String.mk (cs.drop (4 + seps))
  | none => ln

/-- The keyword filter of the fallback phase. -/
def nameKeywords : List String :=
  ["experience", "education", "skills", "work history", "workhistory", "summary"]

/-- The fallback loop of the name extraction: first non-empty line that is
not email-like, phone-like or keyword-bearing and whose stripped label-free
form has length 1..80. -/
def fallbackName : List String → String
  | [] => "Unknown"
  | ln :: rest =>
    if ln = "" then fallbackName rest
    else if hasEmailLike ln.toList then fallbackName rest
    else if hasPhoneRun ln.toList then fallbackName rest
    else if nameKeywords.any (fun k => hasSubstr k.toList (lowerChars ln.toList)) then
      fallbackName rest
    else
      let ln2 := strTrim (stripNameLabel ln)
      if 1 ≤ ln2.length && ln2.length ≤ 80 then ln2 else fallbackName rest

/-- The name extraction of parse_resume over the stripped lines: the label
phase, then (only when it yields the sentinel "Unknown") the fallback
phase. -/
def extract_name (resume_text : String) : String :=
  let lines := (splitlines resume_text).map strTrim
  let labeled :=
    match lines.findSome? (fun ln => (labelMatch ln).map strTrim) with
    | some v => v
    | none => "Unknown"
  if labeled = "Unknown" then fallbackName lines else labeled

/-! ## parse_resume (backend.py lines 167-229) -/

/-- The structured candidate record assembled by parse_resume.  The
`work_history` list (regex extraction that no claim touches) and the
derived `summary` sentence (string formatting of a float, no claim touches
it) are not modelled; every claim reads only the fields below. -/
structure ParsedResume where
  name : String
  email : String
  phone : String
  skills : List String
  experience_years : ℚ
  education : String

/-- backend.py `parse_resume`: email and phone are the first regex
candidates that pass their validators (else empty), the name comes from the
two-phase heuristic, and the remaining fields from their extractors. -/
def parse_resume (resume_text : String) : ParsedResume :=
  let email :=
    match (scanEmails resume_text.toList).find? (fun e => validate_email e) with
    | some e => e
    | none => ""
  let phone :=
    match (scanPhones resume_text.toList).find? (fun p => validate_phone p) with
    | some p => p
    | none => ""
  { name := extract_name resume_text
    email := email
    phone := sanitize_phone phone
    skills := extract_skills resume_text
    experience_years := extract_experience_years resume_text
    education := extract_education resume_text }

/-! ## score_candidate (backend.py lines 232-276) -/

/-- The job requirements record read by score_candidate. -/
structure JobRequirements where
  skills : List String
  min_experience : ℚ
  education_level : String

/-- Python `round(q, 2)` on the exact rational model: scale by 100, round
to the nearest integer, scale back.  (Python rounds ties to even on binary
floats; no statement proved here involves a tie.) -/
def round2 (q : ℚ) : ℚ := ((round (q * 100) : ℤ) : ℚ) / 100

/-- `len(set(candidate.skills) & set(required.skills)) / max(len(set(required.skills)), 1)`. -/
def skillMatchRatio (p : ParsedResume) (r : JobRequirements) : ℚ :=
  ((p.skills.toFinset ∩ r.skills.toFinset).card : ℚ) /
    ((max r.skills.toFinset.card 1 : ℕ) : ℚ)

/-- `min(candidate_exp / exp_required if exp_required > 0 else 1.0, 1.0)`. -/
def experienceMatchRatio (p : ParsedResume) (r : JobRequirements) : ℚ :=
  min (if 0 < r.min_experience then p.experience_years / r.min_experience else 1) 1

/-- The education rank dictionary, in its insertion (= iteration) order. -/
def educationRankTable : List (String × Nat) :=
  [("high school", 1), ("diploma", 2), ("associate", 3), ("bachelor", 4),
   ("master", 5), ("phd", 6), ("doctorate", 6)]

/-- The loop `for edu_key, rank in education_rank.items(): if edu_key in
education: ...; break`: rank of the first table key occurring as a
substring, 0 when none occurs. -/
def firstRankSub (edu : Chars) : List (String × Nat) → Nat
  | [] => 0
  | (k, v) :: rest => if hasSubstr k.toList edu then v else firstRankSub edu rest

/-- `education_rank.get(education_required, 0)`: exact dictionary lookup. -/
def rankLookup (s : String) : List (String × Nat) → Nat
  | [] => 0
  | (k, v) :: rest => if k = s then v else rankLookup s rest

/-- The education ratio of score_candidate: the candidate rank comes from a
first-matching-keyword substring search over the lowercased education text,
the required rank from an exact lookup of the lowercased education_level;
`candidate/required` when the required rank is positive, else 1.0; then
capped at 1.0. -/
def educationMatchRatio (p : ParsedResume) (r : JobRequirements) : ℚ :=
  let c := firstRankSub (lowerChars p.education.toList) educationRankTable
  let q := rankLookup (String.mk (lowerChars r.education_level.toList)) educationRankTable
  min (if 0 < q then (c : ℚ) / (q : ℚ) else 1) 1

/-- The score breakdown returned by score_candidate.  The `explanation`
string (percentage formatting only, no claim touches it) is not
modelled. -/
structure ScoreResult where
  score : ℚ
  skill_match : ℚ
  experience_match : ℚ

/-- backend.py `score_candidate`: fixed 40/40/20 weighting of the three
ratios, all results rounded to two decimals. -/
def score_candidate (p : ParsedResume) (r : JobRequirements) : ScoreResult :=
  let sr := skillMatchRatio p r
  let er := experienceMatchRatio p r
  let edr := educationMatchRatio p r
  { score := round2 (100 * (0.4 * sr + 0.4 * er + 0.2 * edr))
    skill_match := round2 (sr * 100)
    experience_match := round2 (er * 100) }

/-! ## collaborator adapters (backend.py lines 19-63)

The mock services.  The calendar service formats three timestamps derived
from the preferred date (falling back to the current UTC time when the date
does not parse); wall-clock time and strftime formatting are outside the
model, so the three slot strings are represented by a fixed shape derived
from the preferred date.  Every property proved about the workflow depends
only on the length of this list (three, hence never empty), never on the
slot text. -/

def fetch_availability (preferred_date : String) : List String :=
  [preferred_date ++ "T09:00:00", preferred_date ++ "T11:00:00", preferred_date ++ "T14:00:00"]

/-- CalendarAPI.create_event: the event link built from the candidate name
(spaces replaced by underscores) and the slot. -/
def create_event (candidate_name : String) (_candidate_email : String) (slot : String) : String :=
  "https://calendar.example.com/event/" ++
    String.mk (candidate_name.toList.map (fun c => if c = ' ' then '_' else c)) ++ "/" ++ slot

/-- EmailService.send_email: the mock always reports success. -/
def send_email (_to _subject _body : String) : Bool := true

/-- SlackService.send_message: the mock always reports success. -/
def send_message (_channel _message : String) : Bool := true

/-- ATSDatabase.upsert_candidate: stores into the module-level dictionary
(external collaborator state, last-writer-wins) and always returns
"success"; only the returned status is modelled. -/
def upsert_candidate (_p : ParsedResume) : String := "success"

/-! ## workflow steps (backend.py lines 279-303) -/

/-- The details dictionary returned by schedule_interview. -/
structure ScheduleInfo where
  confirmed_slot : String
  calendar_event_link : String

/-- backend.py `schedule_interview`: first available slot (or the "No slots
available" marker), calendar event plus confirmation email when a slot
exists. -/
def schedule_interview (candidate_name candidate_email preferred_date : String) : ScheduleInfo :=
  let available_slots := fetch_availability preferred_date
  let confirmed_slot :=
    match available_slots with
    | s :: _ => s
    | [] => "No slots available"
  if confirmed_slot ≠ "No slots available" then
    let link := create_event candidate_name candidate_email confirmed_slot
    let _ := send_email candidate_email "Interview Scheduled"
      ("Dear " ++ candidate_name ++ ", your interview is scheduled at " ++ confirmed_slot ++
        ". Link: " ++ link)
    { confirmed_slot := confirmed_slot, calendar_event_link := link }
  else
    { confirmed_slot := confirmed_slot, calendar_event_link := "" }

/-- backend.py `notify_hr`: Slack plus email to HR; "success" when both
mock sends succeed, else "failure". -/
def notify_hr (message : String) : String :=
  let slack_status := send_message "#hr-channel" message
  let email_status := send_email "hr@example.com" "Notification from HireFlow AI" message
  if slack_status && email_status then "success" else "failure"

/-- backend.py `update_ats`: status of the upsert. -/
def update_ats (candidate_data : ParsedResume) : String :=
  upsert_candidate candidate_data

/-! ## the workflow (backend.py lines 357-394) -/

/-- The details payload of one logged action. -/
inductive ActionDetails where
  | schedule (info : ScheduleInfo)
  | notify (status : String)
  | ats (status : String)

/-- One entry of the ordered action log. -/
structure LoggedAction where
  action : String
  details : ActionDetails

/-- The workflow log dictionary built by on_resume_submit. -/
structure WorkflowLog where
  parsed_resume : ParsedResume
  score_result : ScoreResult
  actions : List LoggedAction

/-- backend.py `on_resume_submit`: parse, score, branch on the 60
threshold, update the ATS, final completion notification. -/
def on_resume_submit (resume_text : String) (job_requirements : JobRequirements)
    (preferred_interview_date : String) : WorkflowLog :=
  let parsed := parse_resume resume_text
  let scored := score_candidate parsed job_requirements
  let branch :=
    if 60 ≤ scored.score then
      { action := "schedule_interview",
        details := ActionDetails.schedule
          (schedule_interview parsed.name parsed.email preferred_interview_date) : LoggedAction }
    else
      { action := "notify_hr",
        details := ActionDetails.notify (notify_hr
          ("Candidate " ++ parsed.name ++ " scored below threshold with score " ++
            toString scored.score ++ ".")) : LoggedAction }
  { parsed_resume := parsed
    score_result := scored
    actions :=
      [branch,
       { action := "update_ats", details := ActionDetails.ats (update_ats parsed) },
       { action := "notify_hr",
         details := ActionDetails.notify (notify_hr "Candidate processing completed.") }] }

/-- Gregorian leap year rule, as implemented by Python datetime. -/
def isLeapYear (y : Nat) : Bool := y % 4 = 0 && (y % 100 ≠ 0 || y % 400 = 0)

def daysInMonth (y m : Nat) : Nat :=
  if m = 2 then (if isLeapYear y then 29 else 28)
  else if m = 4 || m = 6 || m = 9 || m = 11 then 30
  else 31

/-- backend.py `validate_date_str`: does
`datetime.strptime(date_str, "%Y-%m-%d")` succeed?  strptime requires
exactly four digits for `%Y`, one or two digits for `%m` (value 1..12) and
`%d` (value 1..31), the literal dashes, and no remaining input; the
datetime constructor then rejects year 0 and a day beyond the length of the
month.  (The two-digit-maximum of `%m`/`%d` is equivalent, on an
all-digit run, to the run having length at most 2, since the literal dash
cannot match a digit.) -/
def validate_date_str (date_str : String) : Bool :=
  match date_str.toList with
  | y1 :: y2 :: y3 :: y4 :: '-' :: rest =>
    [y1, y2, y3, y4].all Char.isDigit &&
    (let y := digitsToNat [y1, y2, y3, y4]
     let mds := rest.takeWhile Char.isDigit
     match rest.dropWhile Char.isDigit with
     | '-' :: r2 =>
       let m := digitsToNat mds
       let dds := r2.takeWhile Char.isDigit
       let d := digitsToNat dds
       1 ≤ mds.length && mds.length ≤ 2 && 1 ≤ m && m ≤ 12 &&
       1 ≤ dds.length && dds.length ≤ 2 && (r2.dropWhile Char.isDigit).isEmpty &&
       1 ≤ y && 1 ≤ d && d ≤ daysInMonth y m
     | _ => false)
  | _ => false

/-- The result dictionary of process_workflow: the ok flag plus either the
workflow payload or the error message. -/
structure WorkflowResult where
  ok : Bool
  workflow : Option WorkflowLog
  error : Option String

/-- backend.py `process_workflow`: reject a non-empty malformed preferred
date before doing anything else, otherwise run the workflow; every outcome
is wrapped in a result object.  (The try/except of the source converts any
exception into the failure result; in this embedding the body of the try is
total, and the only raise reachable for well-typed inputs is the date
check.) -/
def process_workflow (resume_text : String) (job_requirements : JobRequirements)
    (preferred_interview_date : String) : WorkflowResult :=
  if preferred_interview_date ≠ "" && !validate_date_str preferred_interview_date then
    { ok := false, workflow := none,
      error := some "preferred_interview_date must be YYYY-MM-DD" }
  else
    { ok := true,
      workflow := some (on_resume_submit resume_text job_requirements preferred_interview_date),
      error := none }

/-- The education ratio as claim C2 words it: BOTH the education text of the
candidate and the education_level of the requirement ranked by
first-matching-keyword substring search.  Written from the words of the
claim, for comparison with `educationMatchRatio`, which follows the code
(the code maps the requirement through an exact dictionary lookup). -/
def educationMatchRatioClaimed (p : ParsedResume) (r : JobRequirements) : ℚ :=
  let c := firstRankSub (lowerChars p.education.toList) educationRankTable
  let q := firstRankSub (lowerChars r.education_level.toList) educationRankTable
  min (if 0 < q then (c : ℚ) / (q : ℚ) else 1) 1

/-! ## helper lemmas -/

theorem round2_mono {a b : ℚ} (h : a ≤ b) : round2 a ≤ round2 b := by
  unfold round2
  have h2 : round (a * 100) ≤ round (b * 100) := by
    rw [round_eq, round_eq]
    exact Int.floor_mono (by linarith)
  have h3 : ((round (a * 100) : ℤ) : ℚ) ≤ ((round (b * 100) : ℤ) : ℚ) := by exact_mod_cast h2
  linarith

theorem round2_zero : round2 0 = 0 := by
  unfold round2
  norm_num

theorem round2_hundred : round2 100 = 100 := by
  unfold round2
  have h : ((100 : ℚ) * 100) = ((10000 : ℤ) : ℚ) := by norm_num
  rw [h, round_intCast]
  norm_num

theorem skillMatchRatio_bounds (p : ParsedResume) (r : JobRequirements) :
    0 ≤ skillMatchRatio p r ∧ skillMatchRatio p r ≤ 1 := by
  unfold skillMatchRatio
  have hden : (1 : ℕ) ≤ max r.skills.toFinset.card 1 := le_max_right _ _
  have hdenq : (0 : ℚ) < ((max r.skills.toFinset.card 1 : ℕ) : ℚ) := by exact_mod_cast hden
  constructor
  · positivity
  · rw [div_le_one hdenq]
    have hnum : (p.skills.toFinset ∩ r.skills.toFinset).card ≤ max r.skills.toFinset.card 1 :=
      le_trans (Finset.card_le_card Finset.inter_subset_right) (le_max_left _ _)
    exact_mod_cast hnum

theorem experienceMatchRatio_bounds (p : ParsedResume) (r : JobRequirements)
    (he : 0 ≤ p.experience_years) :
    0 ≤ experienceMatchRatio p r ∧ experienceMatchRatio p r ≤ 1 := by
  unfold experienceMatchRatio
  refine ⟨le_min ?_ zero_le_one, min_le_right _ _⟩
  split_ifs with hm
  · exact div_nonneg he hm.le
  · exact zero_le_one

theorem educationMatchRatio_bounds (p : ParsedResume) (r : JobRequirements) :
    0 ≤ educationMatchRatio p r ∧ educationMatchRatio p r ≤ 1 := by
  unfold educationMatchRatio
  refine ⟨le_min ?_ zero_le_one, min_le_right _ _⟩
  split_ifs with hq
  · positivity
  · exact zero_le_one

/-! ## Claim C1 -/

/-- C1: for every candidate and requirements with nonnegative
experience_years and min_experience, the score of score_candidate equals
round(100·(0.4·skill_ratio + 0.4·experience_ratio + 0.2·education_ratio), 2),
each of the three ratios lies in [0,1], and the score lies in [0,100]. -/
theorem score_candidate_formula_and_range (p : ParsedResume) (r : JobRequirements)
    (hexp : 0 ≤ p.experience_years) (hmin : 0 ≤ r.min_experience) :
    (0 ≤ skillMatchRatio p r ∧ skillMatchRatio p r ≤ 1) ∧
    (0 ≤ experienceMatchRatio p r ∧ experienceMatchRatio p r ≤ 1) ∧
    (0 ≤ educationMatchRatio p r ∧ educationMatchRatio p r ≤ 1) ∧
    (score_candidate p r).score =
      round2 (100 * (0.4 * skillMatchRatio p r + 0.4 * experienceMatchRatio p r +
        0.2 * educationMatchRatio p r)) ∧
    0 ≤ (score_candidate p r).score ∧ (score_candidate p r).score ≤ 100 := by
  obtain ⟨hs0, hs1⟩ := skillMatchRatio_bounds p r
  obtain ⟨he0, he1⟩ := experienceMatchRatio_bounds p r hexp
  obtain ⟨hd0, hd1⟩ := educationMatchRatio_bounds p r
  have hscore : (score_candidate p r).score =
      round2 (100 * (0.4 * skillMatchRatio p r + 0.4 * experienceMatchRatio p r +
        0.2 * educationMatchRatio p r)) := rfl
  refine ⟨⟨hs0, hs1⟩, ⟨he0, he1⟩, ⟨hd0, hd1⟩, hscore, ?_, ?_⟩
  · rw [hscore]
    have h0 : (0 : ℚ) ≤ 100 * (0.4 * skillMatchRatio p r + 0.4 * experienceMatchRatio p r +
        0.2 * educationMatchRatio p r) := by nlinarith
    calc (0 : ℚ) = round2 0 := round2_zero.symm
    _ ≤ _ := round2_mono h0
  · rw [hscore]
    have h1 : 100 * (0.4 * skillMatchRatio p r + 0.4 * experienceMatchRatio p r +
        0.2 * educationMatchRatio p r) ≤ 100 := by nlinarith
    calc round2 (100 * (0.4 * skillMatchRatio p r + 0.4 * experienceMatchRatio p r +
        0.2 * educationMatchRatio p r)) ≤ round2 100 := round2_mono h1
    _ = 100 := round2_hundred

/-- Witness for C1 at a concrete candidate and requirements. -/
theorem score_candidate_formula_and_range_witness :
    0 ≤ (score_candidate
      { name := "A", email := "", phone := "", skills := ["python"],
        experience_years := 3, education := "Master of Science" }
      { skills := ["python", "java"], min_experience := 5, education_level := "bachelor" }).score ∧
    (score_candidate
      { name := "A", email := "", phone := "", skills := ["python"],
        experience_years := 3, education := "Master of Science" }
      { skills := ["python", "java"], min_experience := 5, education_level := "bachelor" }).score ≤ 100 :=
  (score_candidate_formula_and_range
    { name := "A", email := "", phone := "", skills := ["python"],
      experience_years := 3, education := "Master of Science" }
    { skills := ["python", "java"], min_experience := 5, education_level := "bachelor" }
    (by norm_num) (by norm_num)).2.2.2.2

/-! ## Claim C9 -/

/-- C9: holding everything else fixed, the experience_match of
score_candidate is monotone in the experience_years of the candidate, and
saturates at 100 as soon as experience_years is at least min_experience. -/
theorem experience_match_monotone (p : ParsedResume) (r : JobRequirements) (e1 e2 : ℚ)
    (h : e1 ≤ e2) :
    (score_candidate { p with experience_years := e1 } r).experience_match ≤
      (score_candidate { p with experience_years := e2 } r).experience_match ∧
    (r.min_experience ≤ e2 →
      (score_candidate { p with experience_years := e2 } r).experience_match = 100) := by
  have hmatch : ∀ e : ℚ,
      (score_candidate { p with experience_years := e } r).experience_match =
        round2 ((min (if 0 < r.min_experience then e / r.min_experience else 1) 1) * 100) :=
    fun e => rfl
  constructor
  · rw [hmatch e1, hmatch e2]
    apply round2_mono
    apply mul_le_mul_of_nonneg_right _ (by norm_num)
    split_ifs with hm
    · exact min_le_min (by gcongr) le_rfl
    · exact le_rfl
  · intro hsat
    rw [hmatch e2]
    have hone : (min (if 0 < r.min_experience then e2 / r.min_experience else 1) 1) = 1 := by
      split_ifs with hm
      · exact min_eq_right ((one_le_div hm).mpr hsat)
      · exact min_self 1
    rw [hone, one_mul, round2_hundred]

/-- Witness for C9 at concrete experience values 2 ≤ 7 against a minimum
of 5. -/
theorem experience_match_monotone_witness :
    (score_candidate
      { ({ name := "A", email := "", phone := "", skills := [],
           experience_years := 0, education := "" } : ParsedResume) with experience_years := 2 }
      { skills := [], min_experience := 5, education_level := "" }).experience_match ≤
      (score_candidate
        { ({ name := "A", email := "", phone := "", skills := [],
             experience_years := 0, education := "" } : ParsedResume) with experience_years := 7 }
        { skills := [], min_experience := 5, education_level := "" }).experience_match ∧
    (({ skills := [], min_experience := 5, education_level := "" } : JobRequirements).min_experience ≤ 7 →
      (score_candidate
        { ({ name := "A", email := "", phone := "", skills := [],
             experience_years := 0, education := "" } : ParsedResume) with experience_years := 7 }
        { skills := [], min_experience := 5, education_level := "" }).experience_match = 100) :=
  experience_match_monotone
    { name := "A", email := "", phone := "", skills := [],
      experience_years := 0, education := "" }
    { skills := [], min_experience := 5, education_level := "" } 2 7 (by norm_num)

/-! ## Claim C3 -/

/-- C3 counterexample: with an empty required skill set the code computes
skill ratio 0 — the intersection with the empty set is empty — so
skill_match is 0.0, not the perfect 100.0 the claim states. -/
theorem empty_required_skills_counterexample :
    (score_candidate
      { name := "A", email := "", phone := "", skills := ["python"],
        experience_years := 0, education := "" }
      { skills := [], min_experience := 0, education_level := "" }).skill_match = 0 ∧
    ¬ (score_candidate
      { name := "A", email := "", phone := "", skills := ["python"],
        experience_years := 0, education := "" }
      { skills := [], min_experience := 0, education_level := "" }).skill_match = 100 := by
  with_unfolding_all decide

/-- C3 amended: when requirements.skills is empty, score_candidate treats
the candidate as a ZERO skill match (ratio |∩ ∅|/max(0,1) = 0/1 = 0, so
skill_match = 0.0), for every candidate. -/
theorem empty_required_skills_zero (p : ParsedResume) (r : JobRequirements)
    (h : r.skills = []) :
    skillMatchRatio p r = 0 ∧ (score_candidate p r).skill_match = 0 := by
  have hratio : skillMatchRatio p r = 0 := by
    unfold skillMatchRatio
    rw [h]
    simp
  refine ⟨hratio, ?_⟩
  have hsm : (score_candidate p r).skill_match = round2 (skillMatchRatio p r * 100) := rfl
  rw [hsm, hratio, zero_mul, round2_zero]

/-- Witness for the amended C3 at a concrete candidate. -/
theorem empty_required_skills_zero_witness :
    skillMatchRatio
      { name := "A", email := "", phone := "", skills := ["python"],
        experience_years := 0, education := "" }
      { skills := [], min_experience := 0, education_level := "" } = 0 ∧
    (score_candidate
      { name := "A", email := "", phone := "", skills := ["python"],
        experience_years := 0, education := "" }
      { skills := [], min_experience := 0, education_level := "" }).skill_match = 0 :=
  empty_required_skills_zero
    { name := "A", email := "", phone := "", skills := ["python"],
      experience_years := 0, education := "" }
    { skills := [], min_experience := 0, education_level := "" } rfl

/-! ## Claim C2 -/

/-- C2 counterexample: for a requirement education_level of
"bachelor degree" — which contains the keyword "bachelor" but is not an
exact key of the rank table — the code looks the requirement up exactly,
gets rank 0 and returns ratio 1.0, while the claimed substring search would
give required rank 4 and ratio 0 for a candidate with no education
keyword. -/
theorem education_requirement_lookup_counterexample :
    educationMatchRatio
      { name := "A", email := "", phone := "", skills := [],
        experience_years := 0, education := "" }
      { skills := [], min_experience := 0, education_level := "Bachelor Degree" } = 1 ∧
    educationMatchRatioClaimed
      { name := "A", email := "", phone := "", skills := [],
        experience_years := 0, education := "" }
      { skills := [], min_experience := 0, education_level := "Bachelor Degree" } = 0 := by
  with_unfolding_all decide

theorem firstRankSub_eq_zero (edu : Chars) (table : List (String × Nat))
    (h : ∀ kv ∈ table, hasSubstr kv.1.toList edu = false) : firstRankSub edu table = 0 := by
  induction table with
  | nil => rfl
  | cons kv rest ih =>
    obtain ⟨k, v⟩ := kv
    have hk := h (k, v) (List.mem_cons_self _ _)
    simp only [firstRankSub, hk]
    simp only [Bool.false_eq_true, if_false]
    exact ih fun x hx => h x (List.mem_cons_of_mem _ hx)

theorem rankLookup_eq_zero (s : String) (table : List (String × Nat))
    (h : ∀ kv ∈ table, kv.1 ≠ s) : rankLookup s table = 0 := by
  induction table with
  | nil => rfl
  | cons kv rest ih =>
    obtain ⟨k, v⟩ := kv
    have hk := h (k, v) (List.mem_cons_self _ _)
    simp only [rankLookup, hk, if_false]
    exact ih fun x hx => h x (List.mem_cons_of_mem _ hx)

/-- C2 amended: the candidate education text is ranked by
first-matching-keyword substring search over the table (in its insertion
order), but the requirement education_level is ranked by EXACT
(case-insensitive) dictionary lookup; the ratio is candidate/required when
the required rank is positive, else 1.0, clamped to [0,1]; a candidate
text containing none of the keywords has rank 0, and a requirement that is
not an exact key — even one containing a keyword — yields ratio 1.0. -/
theorem education_ratio_characterization (p : ParsedResume) (r : JobRequirements) :
    (0 ≤ educationMatchRatio p r ∧ educationMatchRatio p r ≤ 1) ∧
    (rankLookup (String.mk (lowerChars r.education_level.toList)) educationRankTable ≠ 0 →
      educationMatchRatio p r =
        min ((firstRankSub (lowerChars p.education.toList) educationRankTable : ℚ) /
          ((rankLookup (String.mk (lowerChars r.education_level.toList)) educationRankTable : ℕ) : ℚ)) 1) ∧
    ((∀ kv ∈ educationRankTable, hasSubstr kv.1.toList (lowerChars p.education.toList) = false) →
      firstRankSub (lowerChars p.education.toList) educationRankTable = 0) ∧
    ((∀ kv ∈ educationRankTable, kv.1 ≠ String.mk (lowerChars r.education_level.toList)) →
      educationMatchRatio p r = 1) := by
  refine ⟨educationMatchRatio_bounds p r, ?_, ?_, ?_⟩
  · intro hq
    simp only [educationMatchRatio]
    rw [if_pos (Nat.pos_of_ne_zero hq)]
  · intro h
    exact firstRankSub_eq_zero _ _ h
  · intro h
    unfold educationMatchRatio
    rw [rankLookup_eq_zero _ _ h]
    norm_num

/-- Witness for the amended C2: candidate "Bachelor of Science" against the
exact requirement key "master". -/
theorem education_ratio_characterization_witness :
    educationMatchRatio
      { name := "A", email := "", phone := "", skills := [],
        experience_years := 0, education := "Bachelor of Science" }
      { skills := [], min_experience := 0, education_level := "Master" } =
      min ((firstRankSub
          (lowerChars ("Bachelor of Science" : String).toList) educationRankTable : ℚ) /
        ((rankLookup (String.mk (lowerChars ("Master" : String).toList)) educationRankTable : ℕ) : ℚ)) 1 :=
  (education_ratio_characterization
    { name := "A", email := "", phone := "", skills := [],
      experience_years := 0, education := "Bachelor of Science" }
    { skills := [], min_experience := 0, education_level := "Master" }).2.1
    (by with_unfolding_all decide)

/-! ## Claim C4 -/

theorem le_foldl_max_acc (acc : ℚ) (l : List ℚ) : acc ≤ l.foldl max acc := by
  induction l generalizing acc with
  | nil => exact le_refl acc
  | cons x xs ih => exact le_trans (le_max_left acc x) (ih (max acc x))

theorem mem_le_foldl_max {v : ℚ} {l : List ℚ} (hv : v ∈ l) (acc : ℚ) :
    v ≤ l.foldl max acc := by
  induction l generalizing acc with
  | nil => cases hv
  | cons x xs ih =>
    rcases List.mem_cons.mp hv with h | h
    · subst h
      exact le_trans (le_max_right acc v) (le_foldl_max_acc (max acc v) xs)
    · exact ih h (max acc x)

/-- C4 (code bug): backend.py line 122 computes `float(m[0])` where m is
the captured number STRING — `re.findall` with one capture group returns
strings — so only the FIRST DIGIT of each matched number is used.  The
quoted examples of the claim (single digits) do hold and are proved below,
but the general sentence "returns the maximum matched number" fails on the
code: "12 years, 3 yrs" yields 3 (the maximum of the first digits 1 and 3),
not 12, and "2.5 years" yields 2, not 2.5.  The last two conjuncts state
what the code actually computes: 0 when nothing matches, and otherwise an
upper bound of the first-digit value of every captured number. -/
theorem extract_experience_years_first_digit_bug :
    extract_experience_years "5 years, 3 yrs" = 5 ∧
    extract_experience_years "" = 0 ∧
    extract_experience_years "12 years, 3 yrs" = 3 ∧
    ¬ extract_experience_years "12 years, 3 yrs" = 12 ∧
    extract_experience_years "2.5 years" = 2 ∧
    (∀ t : String, scanExp (lowerChars t.toList) = [] → extract_experience_years t = 0) ∧
    (∀ t : String, ∀ m ∈ scanExp (lowerChars t.toList),
      (digitsToNat (m.take 1) : ℚ) ≤ extract_experience_years t) := by
  refine ⟨by with_unfolding_all rfl, rfl, by with_unfolding_all rfl,
    by with_unfolding_all decide, by with_unfolding_all rfl, ?_, ?_⟩
  · intro t h
    unfold extract_experience_years
    rw [h]
    split
    · rfl
    · rfl
  · intro t m hm
    by_cases ht : t = ""
    · subst ht
      cases hm
    · have hm2 : (digitsToNat (m.take 1) : ℚ) ∈
          (scanExp (lowerChars t.toList)).map (fun x => (digitsToNat (x.take 1) : ℚ)) :=
        List.mem_map_of_mem _ hm
      rcases hl : (scanExp (lowerChars t.toList)).map (fun x => (digitsToNat (x.take 1) : ℚ))
        with _ | ⟨y, ys⟩
      · rw [hl] at hm2
        cases hm2
      · rw [hl] at hm2
        have hxy : extract_experience_years t = ys.foldl max y := by
          unfold extract_experience_years
          rw [if_neg ht, hl]
        rw [hxy]
        rcases List.mem_cons.mp hm2 with h | h
        · rw [h]
          exact le_foldl_max_acc y ys
        · exact mem_le_foldl_max h y

/-- Witness exercising the membership hypothesis of the C4 theorem: the
capture "3" of "12 years, 3 yrs" has first-digit value 3, bounded by the
returned maximum. -/
theorem extract_experience_years_first_digit_bug_witness :
    (['3'] : Chars) ∈ scanExp (lowerChars ("12 years, 3 yrs" : String).toList) ∧
    (digitsToNat ((['3'] : Chars).take 1) : ℚ) ≤ extract_experience_years "12 years, 3 yrs" :=
  ⟨by with_unfolding_all decide,
   extract_experience_years_first_digit_bug.2.2.2.2.2.2 "12 years, 3 yrs" ['3']
     (by with_unfolding_all decide)⟩

/-! ## Claim C5 -/

/-- C5: a successful process_workflow run carries the log of
on_resume_submit; with score at least 60 the action log is exactly
schedule_interview, then update_ats, then the final notify_hr completion,
and with score below 60 it is notify_hr, then update_ats, then the final
notify_hr completion — so the branch action precedes update_ats and the
log always ends with a notify_hr action. -/
theorem workflow_action_order (t : String) (r : JobRequirements) (d : String) :
    ((process_workflow t r d).ok = true →
      (process_workflow t r d).workflow = some (on_resume_submit t r d)) ∧
    (60 ≤ (on_resume_submit t r d).score_result.score →
      (on_resume_submit t r d).actions.map LoggedAction.action =
        ["schedule_interview", "update_ats", "notify_hr"]) ∧
    ((on_resume_submit t r d).score_result.score < 60 →
      (on_resume_submit t r d).actions.map LoggedAction.action =
        ["notify_hr", "update_ats", "notify_hr"]) := by
  refine ⟨?_, ?_, ?_⟩
  · intro hok
    unfold process_workflow at hok ⊢
    split_ifs at hok ⊢ with hc
    · rfl
  · intro hs
    simp only [on_resume_submit]
    split_ifs with hb
    · rfl
    · exact absurd hs hb
  · intro hs
    simp only [on_resume_submit]
    split_ifs with hb
    · exact absurd hb (not_le.mpr hs)
    · rfl

/-- Witness for C5: the empty resume against empty requirements scores
exactly 60, taking the scheduling branch. -/
theorem workflow_action_order_witness :
    60 ≤ (on_resume_submit "" { skills := [], min_experience := 0, education_level := "" }
      "").score_result.score ∧
    (on_resume_submit "" { skills := [], min_experience := 0, education_level := "" }
      "").actions.map LoggedAction.action = ["schedule_interview", "update_ats", "notify_hr"] :=
  ⟨by with_unfolding_all decide,
   (workflow_action_order "" { skills := [], min_experience := 0, education_level := "" } "").2.1
     (by with_unfolding_all decide)⟩

/-! ## Claim C6 -/

/-- C6: a non-empty preferred_interview_date that fails the ISO YYYY-MM-DD
validation makes process_workflow return the failure result — ok false,
the date error message, and no workflow log (so no actions) — regardless
of the resume and the requirements. -/
theorem malformed_date_rejected (t : String) (r : JobRequirements) (d : String)
    (hne : d ≠ "") (hbad : validate_date_str d = false) :
    process_workflow t r d =
      { ok := false, workflow := none,
        error := some "preferred_interview_date must be YYYY-MM-DD" } := by
  unfold process_workflow
  rw [if_pos (show (d ≠ "" && !validate_date_str d) = true by simp [hne, hbad])]

/-- Witness for C6 at the malformed date of the spec example. -/
theorem malformed_date_rejected_witness :
    process_workflow "" { skills := [], min_experience := 0, education_level := "" }
      "2024/01/01" =
      { ok := false, workflow := none,
        error := some "preferred_interview_date must be YYYY-MM-DD" } :=
  malformed_date_rejected "" { skills := [], min_experience := 0, education_level := "" }
    "2024/01/01" (by decide) (by with_unfolding_all rfl)

/-! ## Claim C7 -/

/-- C7: process_workflow always returns a result object with an explicit
success flag: either ok true with a workflow payload and no error, or ok
false with no payload and an error message. -/
theorem process_workflow_result_flag (t : String) (r : JobRequirements) (d : String) :
    ((process_workflow t r d).ok = true ∧ (process_workflow t r d).workflow.isSome = true ∧
      (process_workflow t r d).error = none) ∨
    ((process_workflow t r d).ok = false ∧ (process_workflow t r d).workflow = none ∧
      (process_workflow t r d).error.isSome = true) := by
  unfold process_workflow
  split_ifs with hc
  · exact Or.inr ⟨rfl, rfl, rfl⟩
  · exact Or.inl ⟨rfl, rfl, rfl⟩

/-! ## Claim C8 -/

/-- C8 counterexample: the resume "Candidate: Unknown" has a recognizable
label line whose trimmed value is "Unknown", but because "Unknown" is also
the sentinel of the label phase, the fallback phase runs and produces the
whole line "Candidate: Unknown" as the name instead of the value. -/
theorem label_value_unknown_counterexample :
    ((splitlines "Candidate: Unknown").map strTrim).findSome?
      (fun ln => (labelMatch ln).map strTrim) = some "Unknown" ∧
    (parse_resume "Candidate: Unknown").name = "Candidate: Unknown" := by
  with_unfolding_all decide

/-- C8 amended: for every resume text whose stripped lines contain a line
matching the `<label>: <value>` pattern, with v the trimmed value of the
FIRST such line, the name produced by parse_resume is exactly v — provided
v is not the literal sentinel "Unknown" (in that case the fallback phase
may replace it). -/
theorem labeled_name_extracted (t v : String)
    (h : ((splitlines t).map strTrim).findSome? (fun ln => (labelMatch ln).map strTrim) = some v)
    (hv : v ≠ "Unknown") :
    (parse_resume t).name = v := by
  show extract_name t = v
  simp only [extract_name]
  rw [h]
  simp [hv]

/-- Witness for the amended C8. -/
theorem labeled_name_extracted_witness :
    (parse_resume "Name:  Ada Lovelace \nada@x.io").name = "Ada Lovelace" :=
  labeled_name_extracted "Name:  Ada Lovelace \nada@x.io" "Ada Lovelace"
    (by with_unfolding_all decide) (by decide)

/-! ## Claim C10 -/

/-- C10: the email field of every parsed resume is either empty or accepted
by validate_email; an email-like substring that fails validation is never
stored. -/
theorem parsed_email_validated (t : String) :
    (parse_resume t).email = "" ∨ validate_email (parse_resume t).email = true := by
  have hemail : (parse_resume t).email =
      match (scanEmails t.toList).find? (fun e => validate_email e) with
      | some e => e
      | none => "" := rfl
  rw [hemail]
  rcases hfind : (scanEmails t.toList).find? (fun e => validate_email e) with _ | e
  · exact Or.inl rfl
  · exact Or.inr (by simpa using List.find?_some hfind)
